import Mathlib

/-!
Verification of `sw.py`, a small CLI that maps labels to SSH addresses and
persists them as one JSON object in `~/.sw/keyring.json`.

The embedding models:
* Python values that can live in the keyring (`PyVal`, `PyDict`): JSON `null`,
  strings, and string-keyed objects — exactly the values the program itself
  reads from and writes to its storage file.  `PyDict` is an insertion-ordered
  association list, mirroring a Python `dict`.
* the `json` module calls the program makes (`dumps`, `loads`) on that value
  space, including `ensure_ascii` string escaping and surrogate pairs;
* the storage file (`FileState`) as either missing or holding a string;
* each command as the composition of the three decorators
  (`open_keyring`, `validate_label`, `required_argument_count`) around its
  body, with Python's dynamic failures (duplicate keyword arguments, missing
  positional arguments, `KeyError`, operations on non-dict values) made
  explicit as `PyErr` outcomes.
-/

mutual

/-- Python values the program stores in / reads from its keyring file:
JSON `null`, strings, and string-keyed objects. -/
inductive PyVal : Type where
  | pynone : PyVal
  | pystr (s : String) : PyVal
  | pydict (d : PyDict) : PyVal

/-- An insertion-ordered Python `dict` with string keys (a JSON object). -/
inductive PyDict : Type where
  | nil : PyDict
  | cons (k : String) (v : PyVal) (rest : PyDict) : PyDict

end  -- mutual

/-- `key in d` for a Python dict. -/
def dMem : PyDict → String → Bool
  | .nil, _ => false
  | .cons k _ rest, key => k == key || dMem rest key

/-- `d[key]` lookup (first — and, for a real dict, only — binding). -/
def dLookup : PyDict → String → Option PyVal
  | .nil, _ => Option.none
  | .cons k v rest, key => if k == key then some v else dLookup rest key

/-- `d[key] = v`: replace in place if the key is present, else append. -/
def dInsert : PyDict → String → PyVal → PyDict
  | .nil, key, v => .cons key v .nil
  | .cons k w rest, key, v =>
      if k == key then .cons k v rest else .cons k w (dInsert rest key v)

/-- `d.pop(key)` minus its return value: drop the first binding of `key`. -/
def dPop : PyDict → String → PyDict
  | .nil, _ => .nil
  | .cons k w rest, key => if k == key then rest else .cons k w (dPop rest key)

/-- Concatenation of two association lists. -/
def dConcat : PyDict → PyDict → PyDict
  | .nil, e => e
  | .cons k v rest, e => .cons k v (dConcat rest e)

/-- Keys are pairwise distinct — the invariant every real Python dict has. -/
def dNodup : PyDict → Bool
  | .nil => true
  | .cons k _ rest => !dMem rest k && dNodup rest

/-- Every value of the dict is a string (a keyring proper: label → address). -/
def dStrVals : PyDict → Bool
  | .nil => true
  | .cons _ (.pystr _) rest => dStrVals rest
  | .cons _ _ _ => false

/-- Number of entries. -/
def dLen : PyDict → Nat
  | .nil => 0
  | .cons _ _ rest => dLen rest + 1

/-- Lowercase hex digit, as CPython's json encoder emits in `\uXXXX`. -/
def hexDigitChar (n : Nat) : Char :=
  if n < 10 then Char.ofNat (48 + n) else Char.ofNat (87 + n)

/-- Four hex digits of `n < 0x10000`, most significant first. -/
def hex4 (n : Nat) : List Char :=
  [hexDigitChar (n / 4096 % 16), hexDigitChar (n / 256 % 16),
   hexDigitChar (n / 16 % 16), hexDigitChar (n % 16)]

/-- `\uXXXX` escape of a code point, using a surrogate pair above `0xFFFF`,
exactly as `json.dumps` (with its default `ensure_ascii=True`) does. -/
def uEscape (n : Nat) : List Char :=
  if n < 0x10000 then '\\' :: 'u' :: hex4 n
  else
    ('\\' :: 'u' :: hex4 (0xd800 + (n - 0x10000) / 1024)) ++
    ('\\' :: 'u' :: hex4 (0xdc00 + (n - 0x10000) % 1024))

/-- How `json.dumps` renders one character of a string: the two-character
escapes for `"`, `\` and the five control shorthands, `\uXXXX` for every
other character outside printable ASCII, the character itself otherwise. -/
def escapeChar (c : Char) : List Char :=
  if c = '"' then ['\\', '"']
  else if c = '\\' then ['\\', '\\']
  else if c = Char.ofNat 8 then ['\\', 'b']
  else if c = Char.ofNat 12 then ['\\', 'f']
  else if c = '\n' then ['\\', 'n']
  else if c = Char.ofNat 13 then ['\\', 'r']
  else if c = '\t' then ['\\', 't']
  else if c.toNat < 0x20 ∨ 0x7e < c.toNat then uEscape c.toNat
  else [c]

/-- `json.dumps` rendering of a string's characters. -/
def escList (cs : List Char) : List Char := (cs.map escapeChar).flatten

/-- A JSON string literal: quotes around the escaped characters. -/
def dumpsStr (cs : List Char) : List Char := '"' :: escList cs ++ ['"']

mutual

/-- `json.dumps(v)` as a character list (default separators `', '`/`': '`). -/
def dumpsVal : PyVal → List Char
  | .pynone => ['n', 'u', 'l', 'l']
  | .pystr s => dumpsStr s.data
  | .pydict d => Char.ofNat 123 :: dumpsEntries d ++ [Char.ofNat 125]

/-- The comma-separated members of a JSON object, `"key": value` each. -/
def dumpsEntries : PyDict → List Char
  | .nil => []
  | .cons k v .nil => dumpsStr k.data ++ ':' :: ' ' :: dumpsVal v
  | .cons k v (.cons k2 v2 rest) =>
      dumpsStr k.data ++ ':' :: ' ' :: dumpsVal v ++
        ',' :: ' ' :: dumpsEntries (.cons k2 v2 rest)

end

/-- `json.dumps(v)` as the source uses it. -/
def dumps (v : PyVal) : String := String.mk (dumpsVal v)

mutual

/-- Python `repr` of a value, as `str` of a dict applies to its members.
(String `repr` quoting is modelled for strings without quote or escape
characters, the only place this ever surfaces is inside the `Connecting
to ...` message when an address is not a string.) -/
def pyReprVal : PyVal → String
  | .pynone => "None"
  | .pystr s => "'" ++ s ++ "'"
  | .pydict d => "\x7b" ++ pyReprEntries d ++ "\x7d"

/-- The members of a dict `repr`: `'key': repr(value)`, comma-separated. -/
def pyReprEntries : PyDict → String
  | .nil => ""
  | .cons k v .nil => "'" ++ k ++ "': " ++ pyReprVal v
  | .cons k v (.cons k2 v2 rest) =>
      "'" ++ k ++ "': " ++ pyReprVal v ++ ", " ++ pyReprEntries (.cons k2 v2 rest)

end

/-- `'{0}'.format(v)`, i.e. Python `str(v)`. -/
def pyFormat : PyVal → String
  | .pynone => "None"
  | .pystr s => s
  | .pydict d => pyReprVal (.pydict d)

/-- Truthiness of a value: `None` and empty containers are falsy. -/
def pyTruthy : PyVal → Bool
  | .pynone => false
  | .pystr s => s ≠ ""
  | .pydict .nil => false
  | .pydict (.cons _ _ _) => true

/-- JSON whitespace, as the `json` module's scanner skips it. -/
def isJsonWs (c : Char) : Bool :=
  c = ' ' || c = '\t' || c = '\n' || c = Char.ofNat 13

/-- Drop leading JSON whitespace. -/
def skipWs : List Char → List Char
  | [] => []
  | c :: rest => if isJsonWs c then skipWs rest else c :: rest

/-- Value of one hex digit, upper or lower case. -/
def hexVal (c : Char) : Option Nat :=
  if '0' ≤ c ∧ c ≤ '9' then some (c.toNat - 48)
  else if 'a' ≤ c ∧ c ≤ 'f' then some (c.toNat - 87)
  else if 'A' ≤ c ∧ c ≤ 'F' then some (c.toNat - 55)
  else Option.none

/-- The four-digit hex value after `\\u`, if all four characters are hex. -/
def hex4Val (a b c d : Char) : Option Nat :=
  match hexVal a, hexVal b, hexVal c, hexVal d with
  | some x, some y, some z, some w => some (x * 4096 + y * 256 + z * 16 + w)
  | _, _, _, _ => Option.none

/-- Continue a `\\uXXXX` escape whose four digits decoded to `n`: a high
surrogate must be followed by an escaped low surrogate and the pair is
combined into one code point, as CPython's scanner does; a lone surrogate —
which CPython would keep as an unpaired surrogate character — has no `Char`
counterpart and is rejected (`json.dumps` output never contains one). -/
def uCont (n : Nat) (rest : List Char) : Option (Char × List Char) :=
  if 0xd800 ≤ n ∧ n < 0xdc00 then
    match rest with
    | b1 :: u2 :: g1 :: g2 :: g3 :: g4 :: rest2 =>
      if b1 = '\\' ∧ u2 = 'u' then
        match hex4Val g1 g2 g3 g4 with
        | some m =>
          if 0xdc00 ≤ m ∧ m < 0xe000 then
            some (Char.ofNat (0x10000 + (n - 0xd800) * 1024 + (m - 0xdc00)), rest2)
          else Option.none
        | Option.none => Option.none
      else Option.none
    | _ => Option.none
  else if 0xdc00 ≤ n ∧ n < 0xe000 then Option.none
  else some (Char.ofNat n, rest)

/-- Decode a `\\uXXXX` escape, positioned after the `\\u`. -/
def uStep : List Char → Option (Char × List Char)
  | h1 :: h2 :: h3 :: h4 :: rest =>
    match hex4Val h1 h2 h3 h4 with
    | some n => uCont n rest
    | Option.none => Option.none
  | _ => Option.none

/-- The single-character JSON escapes. -/
def escMap (e : Char) : Option Char :=
  if e = '"' then some '"'
  else if e = '\\' then some '\\'
  else if e = '/' then some '/'
  else if e = 'b' then some (Char.ofNat 8)
  else if e = 'f' then some (Char.ofNat 12)
  else if e = 'n' then some '\n'
  else if e = 'r' then some (Char.ofNat 13)
  else if e = 't' then some '\t'
  else Option.none

/-- One token of a JSON string body: the closing quote, one decoded
character, or a scan error. -/
inductive StrTok : Type where
  | close (rest : List Char) : StrTok
  | chr (c : Char) (rest : List Char) : StrTok
  | bad : StrTok

/-- Scan one token of a JSON string body (strict mode: raw control characters
are rejected, unknown escapes are rejected). -/
def strTok : List Char → StrTok
  | [] => .bad
  | c :: rest =>
    if c = '"' then .close rest
    else if c = '\\' then
      match rest with
      | 'u' :: rest2 =>
        match uStep rest2 with
        | some (ch, r) => .chr ch r
        | Option.none => .bad
      | e :: rest2 =>
        match escMap e with
        | some ch => .chr ch rest2
        | Option.none => .bad
      | [] => .bad
    else if c.toNat < 0x20 then .bad
    else .chr c rest

/-- Body of a JSON string literal, after its opening quote: the decoded
characters and the input following the closing quote.  The fuel only bounds
the loop; every call site passes the input length, which suffices because
each token consumes at least one character. -/
def parseStringBody : Nat → List Char → Option (List Char × List Char)
  | 0, _ => Option.none
  | fuel + 1, cs =>
    match strTok cs with
    | .close rest => some ([], rest)
    | .chr ch rest =>
      match parseStringBody fuel rest with
      | some (cs2, r) => some (ch :: cs2, r)
      | Option.none => Option.none
    | .bad => Option.none

/-- Recognize the `ull` after an initial `n`, completing the `null` token. -/
def stripUll : List Char → Option (List Char)
  | 'u' :: 'l' :: 'l' :: rest => some rest
  | _ => Option.none

/-- The colon between a member's key and value (leading whitespace allowed). -/
def expectColon (cs : List Char) : Option (List Char) :=
  match skipWs cs with
  | c :: rest => if c = ':' then some rest else Option.none
  | [] => Option.none

/-- What follows a member's value: a comma (and the start of the next key) or
the closing brace. -/
inductive SepTok : Type where
  | comma (rest : List Char) : SepTok
  | close (rest : List Char) : SepTok
  | bad : SepTok

/-- Scan the separator after a member's value. -/
def sepTok (cs : List Char) : SepTok :=
  match skipWs cs with
  | c :: rest =>
    if c = ',' then .comma (skipWs rest)
    else if c = Char.ofNat 125 then .close rest
    else .bad
  | [] => .bad

mutual

/-- One JSON value of the subset the program traffics in (`null`, string,
object), after skipping leading whitespace.  The `fuel` argument only bounds
the member-list/nesting recursion; `loads` passes the input length, which is
always sufficient since every recursive step consumes at least one
character. -/
def parseVal : Nat → List Char → Option (PyVal × List Char)
  | 0, _ => Option.none
  | fuel + 1, cs =>
    match skipWs cs with
    | [] => Option.none
    | c :: rest =>
      if c = 'n' then
        match stripUll rest with
        | some rest2 => some (.pynone, rest2)
        | Option.none => Option.none
      else if c = '"' then
        match parseStringBody (rest.length + 1) rest with
        | some (sc, r) => some (.pystr (String.mk sc), r)
        | Option.none => Option.none
      else if c = Char.ofNat 123 then
        match skipWs rest with
        | d :: rest2 =>
          if d = Char.ofNat 125 then some (.pydict .nil, rest2)
          else parseMembers fuel .nil (d :: rest2)
        | [] => Option.none
      else Option.none

/-- The members of a JSON object, positioned at the opening quote of the next
key.  Members are accumulated by dict assignment, so a repeated key keeps its
first position and its last value — exactly how `json.loads` builds the
`dict`. -/
def parseMembers : Nat → PyDict → List Char → Option (PyVal × List Char)
  | 0, _, _ => Option.none
  | fuel + 1, acc, cs =>
    match cs with
    | [] => Option.none
    | c :: rest =>
      if c = '"' then
        match parseStringBody (rest.length + 1) rest with
        | some (kc, rest2) =>
          match expectColon rest2 with
          | some rest3 =>
            match parseVal fuel rest3 with
            | some (v, rest4) =>
              match sepTok rest4 with
              | .comma rest5 => parseMembers fuel (dInsert acc (String.mk kc) v) rest5
              | .close rest5 => some (.pydict (dInsert acc (String.mk kc) v), rest5)
              | .bad => Option.none
            | Option.none => Option.none
          | Option.none => Option.none
        | Option.none => Option.none
      else Option.none

end

/-- `json.loads` on the JSON subset the program reads and writes: parse one
value and require only whitespace after it.  `Option.none` is the model of
`json.decoder.JSONDecodeError`. -/
def loads (s : String) : Option PyVal :=
  match parseVal (s.data.length + 1) s.data with
  | some (v, rest) => if skipWs rest = [] then some v else Option.none
  | Option.none => Option.none

/-- `VERSION` from the source. -/
def VERSION : String := "0.2.0"

/-- `DATA_DIR`: `~/.sw` (the `expanduser` resolution is environment data and
kept symbolic). -/
def DATA_DIR : String := "~/.sw"

/-- The `mkdir -p` shell command `open_keyring` always issues first. -/
def mkdirShell : String := "mkdir -p " ++ DATA_DIR

/-- The keyring file: absent, or present with some byte content. -/
inductive FileState : Type where
  | missing : FileState
  | present (content : String) : FileState

/-- The unhandled Python exceptions the program can die with, at the points
the source can raise them. -/
inductive PyErr : Type where
  /-- `fn(*args, **kwargs, keyring=keyring)` with `keyring` already in
  `kwargs`: `TypeError: got multiple values for keyword argument 'keyring'`. -/
  | kwargMultipleKeyring : PyErr
  /-- A positional argument lands on the `keyring` parameter that is also
  passed by keyword: `TypeError: got multiple values for argument 'keyring'`. -/
  | argMultipleKeyring : PyErr
  /-- `validate_label_fn` called with no positional arguments:
  `TypeError: missing 1 required positional argument: 'label'`. -/
  | missingLabelArg : PyErr
  /-- A wrapped function called with fewer positionals than it requires. -/
  | missingPositionalArg : PyErr
  /-- `label in keyring` when the loaded value is `None`. -/
  | noneNotIterable : PyErr
  /-- `keyring[label]` when the loaded value is `None`. -/
  | noneNotSubscriptable : PyErr
  /-- `keyring[label]` when the loaded value is a string. -/
  | strIndicesMustBeInt : PyErr
  /-- `keyring[label] = v` when the loaded value is a string. -/
  | strItemAssignment : PyErr
  /-- `keyring[label] = v` when the loaded value is `None`. -/
  | noneItemAssignment : PyErr
  /-- `keyring.pop`/`keyring.items` on a value without that attribute. -/
  | attributeMissing : PyErr
  /-- `keyring[label]` on a dict lacking the key. -/
  | keyError (k : String) : PyErr

/-- Observable outcome of running (part of) a command: lines printed, shell
commands spawned via `subprocess.run`, the keyring file afterwards, and the
Python return value — or the exception that escaped. -/
structure Eff : Type where
  printed : List String
  shell : List String
  fs : FileState
  ret : Except PyErr PyVal

/-- A function wrapped by the keyring decorators: positional arguments, the
`keyring` keyword argument, and the current file. -/
abbrev InnerFn := List String → PyVal → FileState → Eff

/-- `open_keyring(write).__call__`'s view of a decorated command: positional
arguments, an optional `keyring` keyword argument (present only when
`rename_key`'s body re-enters `add_key`/`remove_key`), and the file. -/
abbrev PyCmd := List String → Option PyVal → FileState → Eff

/-- What `open_keyring` finds in the file: the parsed JSON value, or the
empty dict when the file is missing or `json.loads` raises
(`except (JSONDecodeError, FileNotFoundError): keyring = {}`). -/
def load : FileState → PyVal
  | .missing => .pydict .nil
  | .present s =>
    match loads s with
    | some v => v
    | Option.none => .pydict .nil

/-- `save_keyring`: write `json.dumps(keyring)` over the file, return the
keyring for chaining. -/
def save_keyring (v : PyVal) : PyVal × FileState := (v, .present (dumps v))

/-- The `open_keyring(write)` decorator: run `mkdir -p`, load the file, call
the wrapped function with `keyring` as an extra keyword argument, and save
its result when `write` is true.  If the caller already supplied a `keyring`
keyword (as `rename_key`'s body does), the inner call itself raises
`TypeError` before the wrapped function runs. -/
def open_keyring (write : Bool) (fn : InnerFn) : PyCmd :=
  fun args kw fs =>
    let keyring := load fs
    match kw with
    | some _ => ⟨[], [mkdirShell], fs, .error .kwargMultipleKeyring⟩
    | Option.none =>
      let r := fn args keyring fs
      match r.ret with
      | .error e => ⟨r.printed, mkdirShell :: r.shell, r.fs, .error e⟩
      | .ok v =>
        if write then
          let (v2, fs2) := save_keyring v
          ⟨r.printed, mkdirShell :: r.shell, fs2, .ok v2⟩
        else ⟨r.printed, mkdirShell :: r.shell, r.fs, .ok v⟩

/-- Does `hay` start with `needle`? -/
def startsWithChars : List Char → List Char → Bool
  | [], _ => true
  | _ :: _, [] => false
  | a :: as, b :: bs => a == b && startsWithChars as bs

/-- Python `needle in hay` on strings: contiguous substring containment. -/
def subStrChars (needle : List Char) : List Char → Bool
  | [] => needle.isEmpty
  | c :: t => startsWithChars needle (c :: t) || subStrChars needle t

/-- `label in keyring` for whatever `load` produced: dict membership, substring
test on a string, `TypeError` on `None`. -/
def pyContains (keyring : PyVal) (label : String) : Except PyErr Bool :=
  match keyring with
  | .pydict d => .ok (dMem d label)
  | .pystr s => .ok (subStrChars label.data s.data)
  | .pynone => .error .noneNotIterable

/-- `keyring[label]` for whatever `load` produced. -/
def pySubscript (keyring : PyVal) (label : String) : Except PyErr PyVal :=
  match keyring with
  | .pydict d =>
    match dLookup d label with
    | some v => .ok v
    | Option.none => .error (.keyError label)
  | .pystr _ => .error .strIndicesMustBeInt
  | .pynone => .error .noneNotSubscriptable

/-- The `validate_label(exists)` decorator: peel off the first positional
argument as the label (raising `TypeError` when there is none), test
`label in keyring`, and either run the wrapped function on the full argument
list or print the mismatch message and return the keyring unchanged. -/
def validate_label (ex : Bool) (fn : InnerFn) : InnerFn :=
  fun args keyring fs =>
    match args with
    | [] => ⟨[], [], fs, .error .missingLabelArg⟩
    | label :: _ =>
      match pyContains keyring label with
      | .error e => ⟨[], [], fs, .error e⟩
      | .ok does_exist =>
        if does_exist = ex then fn args keyring fs
        else if ex then
          ⟨[label ++ " is not a valid label!"], [], fs, .ok keyring⟩
        else
          ⟨["The label " ++ label ++ " is already registered!"], [], fs, .ok keyring⟩

/-- The `required_argument_count(min_args)` decorator: with too few
positional arguments print the count message and return `None` (a bare
`return`) — which `open_keyring` will then happily serialize; otherwise run
the wrapped function. -/
def required_argument_count (min_args : Nat) (fn : InnerFn) : InnerFn :=
  fun args keyring fs =>
    if args.length < min_args then
      ⟨["This action requires " ++ toString min_args ++ " arguments!"], [], fs,
        .ok .pynone⟩
    else fn args keyring fs

/-- Body of `add_key(label, addr, keyring)`: insert and return.  A third
positional argument would land on the `keyring` parameter that `open_keyring`
also passes by keyword — `TypeError`. -/
def add_key_body : InnerFn :=
  fun args keyring fs =>
    match args with
    | [label, addr] =>
      match keyring with
      | .pydict d => ⟨[], [], fs, .ok (.pydict (dInsert d label (.pystr addr)))⟩
      | .pystr _ => ⟨[], [], fs, .error .strItemAssignment⟩
      | .pynone => ⟨[], [], fs, .error .noneItemAssignment⟩
    | _ :: _ :: _ :: _ => ⟨[], [], fs, .error .argMultipleKeyring⟩
    | _ => ⟨[], [], fs, .error .missingPositionalArg⟩

/-- The decorated `add_key`:
`open_keyring() ∘ validate_label(exists=False) ∘ required_argument_count(2)`. -/
def add_key : PyCmd :=
  open_keyring true (validate_label false (required_argument_count 2 add_key_body))

/-- Body of `remove_key(label, keyring)`: `keyring.pop(label)` and return. -/
def remove_key_body : InnerFn :=
  fun args keyring fs =>
    match args with
    | [label] =>
      match keyring with
      | .pydict d =>
        match dLookup d label with
        | some _ => ⟨[], [], fs, .ok (.pydict (dPop d label))⟩
        | Option.none => ⟨[], [], fs, .error (.keyError label)⟩
      | _ => ⟨[], [], fs, .error .attributeMissing⟩
    | _ :: _ :: _ => ⟨[], [], fs, .error .argMultipleKeyring⟩
    | [] => ⟨[], [], fs, .error .missingPositionalArg⟩

/-- The decorated `remove_key`:
`open_keyring() ∘ validate_label() ∘ required_argument_count(1)`. -/
def remove_key : PyCmd :=
  open_keyring true (validate_label true (required_argument_count 1 remove_key_body))

/-- Body of `rename_key(label, new_label, keyring)`.  It calls the *decorated*
`add_key` (and, were that to return, `remove_key`) with `keyring=` as a
keyword argument; `open_keyring` then supplies `keyring` a second time, so
the nested call raises `TypeError` right after its own `mkdir`/load — see
`open_keyring_with_kwarg`.  The positional arguments of that doomed call are
never read, so the non-string rendering of `keyring[label]` is immaterial. -/
def rename_key_body : InnerFn :=
  fun args keyring fs =>
    match args with
    | [label, new_label] =>
      match pySubscript keyring label with
      | .error e => ⟨[], [], fs, .error e⟩
      | .ok value =>
        let r1 := add_key [new_label, pyFormat value] (some keyring) fs
        match r1.ret with
        | .error e => ⟨r1.printed, r1.shell, r1.fs, .error e⟩
        | .ok v1 =>
          if pyTruthy v1 then
            let r2 := remove_key [label] (some keyring) r1.fs
            match r2.ret with
            | .error e =>
              ⟨r1.printed ++ r2.printed, r1.shell ++ r2.shell, r2.fs, .error e⟩
            | .ok _ =>
              ⟨r1.printed ++ r2.printed, r1.shell ++ r2.shell, r2.fs, .ok keyring⟩
          else ⟨r1.printed, r1.shell, r1.fs, .ok keyring⟩
    | _ :: _ :: _ :: _ => ⟨[], [], fs, .error .argMultipleKeyring⟩
    | _ => ⟨[], [], fs, .error .missingPositionalArg⟩

/-- The decorated `rename_key`: `open_keyring() ∘ required_argument_count(2)`
(no label validation of its own). -/
def rename_key : PyCmd :=
  open_keyring true (required_argument_count 2 rename_key_body)

/-- Body of `ssh_connect(label, keyring)`: print, run `ssh`, print, return. -/
def ssh_connect_body : InnerFn :=
  fun args keyring fs =>
    match args with
    | [label] =>
      match pySubscript keyring label with
      | .error e => ⟨[], [], fs, .error e⟩
      | .ok v =>
        ⟨["Connecting to " ++ pyFormat v ++ "...", "ssh session finished"],
          ["ssh " ++ pyFormat v], fs, .ok keyring⟩
    | _ :: _ :: _ => ⟨[], [], fs, .error .argMultipleKeyring⟩
    | [] => ⟨[], [], fs, .error .missingPositionalArg⟩

/-- The decorated `ssh_connect`. -/
def ssh_connect : PyCmd :=
  open_keyring true (validate_label true (required_argument_count 1 ssh_connect_body))

/-- Body of `ssh_run(label, command, keyring)`: like `ssh_connect` but with
`ssh -t` and the command string appended. -/
def ssh_run_body : InnerFn :=
  fun args keyring fs =>
    match args with
    | [label, command] =>
      match pySubscript keyring label with
      | .error e => ⟨[], [], fs, .error e⟩
      | .ok v =>
        ⟨["Connecting to " ++ pyFormat v ++ "...", "ssh session finished"],
          ["ssh -t " ++ pyFormat v ++ " " ++ command], fs, .ok keyring⟩
    | _ :: _ :: _ :: _ => ⟨[], [], fs, .error .argMultipleKeyring⟩
    | _ => ⟨[], [], fs, .error .missingPositionalArg⟩

/-- The decorated `ssh_run`. -/
def ssh_run : PyCmd :=
  open_keyring true (validate_label true (required_argument_count 2 ssh_run_body))

/-- The `LABEL\tADDRESS` rows `list_keys` prints. -/
def listRows : PyDict → List String
  | .nil => []
  | .cons k v rest => (k ++ "\t" ++ pyFormat v) :: listRows rest

/-- Body of `list_keys(keyring)`: header plus one row per entry.  Any
positional argument would collide with the `keyring` keyword. -/
def list_keys_body : InnerFn :=
  fun args keyring fs =>
    match args with
    | [] =>
      match keyring with
      | .pydict d => ⟨"LABEL\tADDRESS" :: listRows d, [], fs, .ok keyring⟩
      | _ => ⟨[], [], fs, .error .attributeMissing⟩
    | _ :: _ => ⟨[], [], fs, .error .argMultipleKeyring⟩

/-- The decorated `list_keys`: `open_keyring(write=False)` only. -/
def list_keys : PyCmd := open_keyring false list_keys_body

/-- Body of `export_keyring(keyring)`: print the JSON dump. -/
def export_keyring_body : InnerFn :=
  fun args keyring fs =>
    match args with
    | [] => ⟨[dumps keyring], [], fs, .ok keyring⟩
    | _ :: _ => ⟨[], [], fs, .error .argMultipleKeyring⟩

/-- The decorated `export_keyring`: `open_keyring(write=False)` only. -/
def export_keyring : PyCmd := open_keyring false export_keyring_body

/-- Body of `import_keyring(keyring, filepath)`.  Its first parameter is
named `keyring`, so the positional file path binds to `keyring` while
`open_keyring` also passes `keyring` by keyword: every call that reaches this
point raises `TypeError: got multiple values for argument 'keyring'` before
the body — the merge `{**keyring, **new_keys}` included — can run. -/
def import_keyring_body : InnerFn :=
  fun args _keyring fs =>
    match args with
    | [] => ⟨[], [], fs, .error .missingPositionalArg⟩
    | _ :: _ => ⟨[], [], fs, .error .argMultipleKeyring⟩

/-- The decorated `import_keyring`:
`open_keyring() ∘ required_argument_count(1)`. -/
def import_keyring : PyCmd :=
  open_keyring true (required_argument_count 1 import_keyring_body)

/-- `print_version`: prints the version, touches nothing else. -/
def print_version (fs : FileState) : Eff := ⟨[VERSION], [], fs, .ok .pynone⟩

/-- The lines of `print_usage`, verbatim. -/
def usageLines : List String :=
  ["USAGE: sw COMMAND", "", "Possible commands:", "",
   "sw version", "sw list", "sw add       LABEL   ADDR",
   "sw rename    LABEL   NEWLABEL", "sw remove    LABEL",
   "sw connect   LABEL", "sw run       LABEL   COMMAND",
   "sw export", "sw import    FILE"]

/-- `main()`: dispatch on `sys.argv[1]` with `sys.argv[2:]` as arguments;
print usage and exit when no or an unknown command is given.  (The source's
name `main` is reserved by Lean for entry points, hence the prefix.) -/
def sw_main (argv : List String) (fs : FileState) : Eff :=
  match argv with
  | [] => ⟨usageLines, [], fs, .ok .pynone⟩
  | command :: args =>
    if command = "version" then print_version fs
    else if command = "list" then list_keys args Option.none fs
    else if command = "add" then add_key args Option.none fs
    else if command = "rename" then rename_key args Option.none fs
    else if command = "remove" then remove_key args Option.none fs
    else if command = "connect" then ssh_connect args Option.none fs
    else if command = "export" then export_keyring args Option.none fs
    else if command = "import" then import_keyring args Option.none fs
    else if command = "run" then ssh_run args Option.none fs
    else ⟨usageLines, [], fs, .ok .pynone⟩

/-- Structural induction over `PyDict` alone (the `induction` tactic cannot
use the mutual recursor directly). -/
theorem pyDictInd (motive : PyDict → Prop) (hnil : motive .nil)
    (hcons : ∀ k v rest, motive rest → motive (.cons k v rest)) : ∀ d, motive d :=
  @PyDict.rec (fun _ => True) motive trivial (fun _ => trivial) (fun _ _ => trivial)
    hnil (fun k v rest _ ih => hcons k v rest ih)

/-- Membership is exactly definedness of lookup. -/
theorem dMem_eq_isSome_dLookup (d : PyDict) (key : String) :
    dMem d key = (dLookup d key).isSome := by
  induction d using pyDictInd with
  | hnil => simp [dMem, dLookup]
  | hcons k v rest ih =>
    by_cases hk : k == key <;> simp [dMem, dLookup, hk, ih]

/-- `open_keyring`'s behaviour when the wrapped call already received a
`keyring` keyword argument (as happens for the calls `rename_key`'s body
makes): `mkdir` runs, the file is read, and then the inner call raises the
duplicate-keyword `TypeError` — whatever the positional arguments were. -/
theorem open_keyring_with_kwarg (write : Bool) (fn : InnerFn) (args : List String)
    (kr : PyVal) (fs : FileState) :
    open_keyring write fn args (some kr) fs =
      ⟨[], [mkdirShell], fs, .error .kwargMultipleKeyring⟩ := rfl

/-- `add` on an already-registered label prints the registration message and
returns (and re-saves) the keyring unchanged — for any tail of further
arguments, since `validate_label` runs before the argument-count check. -/
theorem add_key_existing (fs : FileState) (d : PyDict) (label : String)
    (rest : List String) (h : load fs = .pydict d) (hm : dMem d label = true) :
    sw_main ("add" :: label :: rest) fs =
      ⟨["The label " ++ label ++ " is already registered!"], [mkdirShell],
        .present (dumps (.pydict d)), .ok (.pydict d)⟩ := by
  simp [sw_main, add_key, open_keyring, validate_label, required_argument_count,
    pyContains, h, hm, save_keyring]

/-- `add` with one argument naming a fresh label passes the label check, fails
the count check — and `open_keyring` then serializes the guard's `None`,
overwriting the keyring file with `null`. -/
theorem add_key_count_fail (fs : FileState) (d : PyDict) (label : String)
    (h : load fs = .pydict d) (hm : dMem d label = false) :
    sw_main ["add", label] fs =
      ⟨["This action requires 2 arguments!"], [mkdirShell],
        .present "null", .ok .pynone⟩ := by
  simp [sw_main, add_key, open_keyring, validate_label, required_argument_count,
    pyContains, h, hm, save_keyring, dumps, dumpsVal]
  rfl

/-- `add` on a fresh label with both arguments inserts and persists. -/
theorem add_key_fresh (fs : FileState) (d : PyDict) (label addr : String)
    (h : load fs = .pydict d) (hm : dMem d label = false) :
    sw_main ["add", label, addr] fs =
      ⟨[], [mkdirShell],
        .present (dumps (.pydict (dInsert d label (.pystr addr)))),
        .ok (.pydict (dInsert d label (.pystr addr)))⟩ := by
  simp [sw_main, add_key, open_keyring, validate_label, required_argument_count,
    pyContains, h, hm, save_keyring, add_key_body]

/-- `remove` on an unregistered label prints the invalid-label message and
returns (and re-saves) the keyring unchanged — for any tail of further
arguments. -/
theorem remove_key_missing (fs : FileState) (d : PyDict) (label : String)
    (rest : List String) (h : load fs = .pydict d) (hm : dMem d label = false) :
    sw_main ("remove" :: label :: rest) fs =
      ⟨[label ++ " is not a valid label!"], [mkdirShell],
        .present (dumps (.pydict d)), .ok (.pydict d)⟩ := by
  simp [sw_main, remove_key, open_keyring, validate_label, required_argument_count,
    pyContains, h, hm, save_keyring]

/-- `connect` on an unregistered label: invalid-label message, no change. -/
theorem ssh_connect_missing (fs : FileState) (d : PyDict) (label : String)
    (rest : List String) (h : load fs = .pydict d) (hm : dMem d label = false) :
    sw_main ("connect" :: label :: rest) fs =
      ⟨[label ++ " is not a valid label!"], [mkdirShell],
        .present (dumps (.pydict d)), .ok (.pydict d)⟩ := by
  simp [sw_main, ssh_connect, open_keyring, validate_label, required_argument_count,
    pyContains, h, hm, save_keyring]

/-- `run` on an unregistered label: invalid-label message, no change. -/
theorem ssh_run_missing (fs : FileState) (d : PyDict) (label : String)
    (rest : List String) (h : load fs = .pydict d) (hm : dMem d label = false) :
    sw_main ("run" :: label :: rest) fs =
      ⟨[label ++ " is not a valid label!"], [mkdirShell],
        .present (dumps (.pydict d)), .ok (.pydict d)⟩ := by
  simp [sw_main, ssh_run, open_keyring, validate_label, required_argument_count,
    pyContains, h, hm, save_keyring]

/-- `connect` on a registered label: the ssh call happens and the very mapping
that was loaded is returned and written back. -/
theorem ssh_connect_ok (fs : FileState) (d : PyDict) (label : String) (v : PyVal)
    (h : load fs = .pydict d) (hv : dLookup d label = some v) :
    sw_main ["connect", label] fs =
      ⟨["Connecting to " ++ pyFormat v ++ "...", "ssh session finished"],
        [mkdirShell, "ssh " ++ pyFormat v],
        .present (dumps (.pydict d)), .ok (.pydict d)⟩ := by
  have hm : dMem d label = true := by
    rw [dMem_eq_isSome_dLookup, hv]
    rfl
  simp [sw_main, ssh_connect, open_keyring, validate_label, required_argument_count,
    pyContains, h, hm, save_keyring, ssh_connect_body, pySubscript, hv]

/-- `run` on a registered label: the ssh call happens and the very mapping
that was loaded is returned and written back. -/
theorem ssh_run_ok (fs : FileState) (d : PyDict) (label command : String) (v : PyVal)
    (h : load fs = .pydict d) (hv : dLookup d label = some v) :
    sw_main ["run", label, command] fs =
      ⟨["Connecting to " ++ pyFormat v ++ "...", "ssh session finished"],
        [mkdirShell, "ssh -t " ++ pyFormat v ++ " " ++ command],
        .present (dumps (.pydict d)), .ok (.pydict d)⟩ := by
  have hm : dMem d label = true := by
    rw [dMem_eq_isSome_dLookup, hv]
    rfl
  simp [sw_main, ssh_run, open_keyring, validate_label, required_argument_count,
    pyContains, h, hm, save_keyring, ssh_run_body, pySubscript, hv]

/-- A `Char` is a Unicode scalar value: never a surrogate, below `0x110000`. -/
theorem char_toNat_valid (c : Char) :
    c.toNat < 0xd800 ∨ (0xdfff < c.toNat ∧ c.toNat < 0x110000) := c.valid

/-- Packing a character's code point back into a `Char` is the identity. -/
theorem char_ofNat_toNat (c : Char) : Char.ofNat c.toNat = c := by
  obtain ⟨⟨bv⟩, hvalid⟩ := c
  apply Char.eq_of_val_eq
  unfold Char.ofNat
  rw [dif_pos (show (Char.toNat ⟨⟨bv⟩, hvalid⟩).isValidChar from hvalid)]
  unfold Char.ofNatAux
  congr 1

/-- `hexVal` inverts `hexDigitChar` on digit values. -/
theorem hexVal_hexDigitChar : ∀ m, m < 16 → hexVal (hexDigitChar m) = some m := by decide


/-- Rebuilding a `String` from its character data is the identity. -/
theorem string_mk_data (s : String) : String.mk s.data = s := rfl

/-- Membership in a concatenation. -/
theorem dMem_dConcat (a b : PyDict) (key : String) :
    dMem (dConcat a b) key = (dMem a key || dMem b key) := by
  induction a using pyDictInd with
  | hnil => simp [dConcat, dMem]
  | hcons k v rest ih => simp [dConcat, dMem, ih, Bool.or_assoc]

/-- In a duplicate-free concatenation, a key of the right part is fresh for
the left part. -/
theorem dNodup_dConcat_head (a b : PyDict) (k : String) (v : PyVal)
    (h : dNodup (dConcat a (.cons k v b)) = true) : dMem a k = false := by
  induction a using pyDictInd with
  | hnil => simp [dMem]
  | hcons k1 v1 rest ih =>
    simp only [dConcat, dNodup, Bool.and_eq_true, Bool.not_eq_true',
      dMem_dConcat, dMem, Bool.or_eq_false_iff] at h
    obtain ⟨⟨hr, hk, _⟩, hrest⟩ := h
    have hk1 : (k1 == k) = false := by
      cases hbe : k == k1 with
      | false =>
        simp only [beq_eq_false_iff_ne] at hbe ⊢
        exact fun hcontra => hbe hcontra.symm
      | true => rw [hbe] at hk; cases hk
    simp [dMem, hk1, ih hrest]

/-- Assignment of a fresh key appends the binding at the end, in Python dict
insertion order. -/
theorem dInsert_fresh (a : PyDict) (k : String) (v : PyVal) (h : dMem a k = false) :
    dInsert a k v = dConcat a (.cons k v .nil) := by
  induction a using pyDictInd with
  | hnil => rfl
  | hcons k1 v1 rest ih =>
    simp only [dMem, Bool.or_eq_false_iff] at h
    simp [dInsert, dConcat, h.1, ih h.2]

/-- Concatenation of association lists is associative. -/
theorem dConcat_assoc (a b c : PyDict) :
    dConcat (dConcat a b) c = dConcat a (dConcat b c) := by
  induction a using pyDictInd with
  | hnil => rfl
  | hcons k v rest ih => simp [dConcat, ih]

/-- The scanner closes the string at an unescaped quote. -/
theorem strTok_close (rest : List Char) : strTok ('"' :: rest) = .close rest := by
  simp [strTok]

/-- `hex4Val` on four rendered hex digits. -/
theorem hex4Val_hexDigits (w x y z : Nat) (hw : w < 16) (hx : x < 16)
    (hy : y < 16) (hz : z < 16) :
    hex4Val (hexDigitChar w) (hexDigitChar x) (hexDigitChar y) (hexDigitChar z) =
      some (w * 4096 + x * 256 + y * 16 + z) := by
  simp [hex4Val, hexVal_hexDigitChar _ hw, hexVal_hexDigitChar _ hx,
    hexVal_hexDigitChar _ hy, hexVal_hexDigitChar _ hz]

/-- `uStep` hands a decoded digit group over to `uCont`. -/
theorem uStep_some {h1 h2 h3 h4 : Char} {n : Nat} (rest : List Char)
    (h : hex4Val h1 h2 h3 h4 = some n) :
    uStep (h1 :: h2 :: h3 :: h4 :: rest) = uCont n rest := by
  simp [uStep, h]

/-- `uCont` yields the scalar directly outside the surrogate range. -/
theorem uCont_scalar (n : Nat) (rest : List Char)
    (h : n < 0xd800 ∨ (0xdfff < n ∧ n < 0x10000)) :
    uCont n rest = some (Char.ofNat n, rest) := by
  unfold uCont
  rw [if_neg (by omega), if_neg (by omega)]

/-- `uCont` on a high surrogate followed by an escaped low surrogate. -/
theorem uCont_pair {g1 g2 g3 g4 : Char} {m : Nat} (n : Nat) (rest2 : List Char)
    (hn : 0xd800 ≤ n ∧ n < 0xdc00) (hg : hex4Val g1 g2 g3 g4 = some m)
    (hm : 0xdc00 ≤ m ∧ m < 0xe000) :
    uCont n ('\\' :: 'u' :: g1 :: g2 :: g3 :: g4 :: rest2) =
      some (Char.ofNat (0x10000 + (n - 0xd800) * 1024 + (m - 0xdc00)), rest2) := by
  unfold uCont
  rw [if_pos hn]
  simp [hg, hm]

/-- `uStep` decodes the four hex digits of a non-surrogate code point. -/
theorem uStep_hex4 (n : Nat) (rest : List Char) (hn : n < 0x10000)
    (hs : n < 0xd800 ∨ 0xdfff < n) :
    uStep (hex4 n ++ rest) = some (Char.ofNat n, rest) := by
  have hd := hex4Val_hexDigits (n / 4096 % 16) (n / 256 % 16) (n / 16 % 16) (n % 16)
    (by omega) (by omega) (by omega) (by omega)
  rw [show n / 4096 % 16 * 4096 + n / 256 % 16 * 256 + n / 16 % 16 * 16 + n % 16 = n
    from by omega] at hd
  simp only [hex4, List.cons_append, List.nil_append]
  rw [uStep_some rest hd, uCont_scalar n rest (by omega)]

/-- `uStep` combines an encoded surrogate pair back into its code point. -/
theorem uStep_pair (n : Nat) (rest : List Char) (h1 : 0x10000 ≤ n)
    (h2 : n < 0x110000) :
    uStep (hex4 (0xd800 + (n - 0x10000) / 1024) ++
        '\\' :: 'u' :: hex4 (0xdc00 + (n - 0x10000) % 1024) ++ rest) =
      some (Char.ofNat n, rest) := by
  have hdhi := hex4Val_hexDigits ((0xd800 + (n - 0x10000) / 1024) / 4096 % 16)
    ((0xd800 + (n - 0x10000) / 1024) / 256 % 16)
    ((0xd800 + (n - 0x10000) / 1024) / 16 % 16)
    ((0xd800 + (n - 0x10000) / 1024) % 16) (by omega) (by omega) (by omega) (by omega)
  rw [show (0xd800 + (n - 0x10000) / 1024) / 4096 % 16 * 4096 +
      (0xd800 + (n - 0x10000) / 1024) / 256 % 16 * 256 +
      (0xd800 + (n - 0x10000) / 1024) / 16 % 16 * 16 +
      (0xd800 + (n - 0x10000) / 1024) % 16 = 0xd800 + (n - 0x10000) / 1024
    from by omega] at hdhi
  have hdlo := hex4Val_hexDigits ((0xdc00 + (n - 0x10000) % 1024) / 4096 % 16)
    ((0xdc00 + (n - 0x10000) % 1024) / 256 % 16)
    ((0xdc00 + (n - 0x10000) % 1024) / 16 % 16)
    ((0xdc00 + (n - 0x10000) % 1024) % 16) (by omega) (by omega) (by omega) (by omega)
  rw [show (0xdc00 + (n - 0x10000) % 1024) / 4096 % 16 * 4096 +
      (0xdc00 + (n - 0x10000) % 1024) / 256 % 16 * 256 +
      (0xdc00 + (n - 0x10000) % 1024) / 16 % 16 * 16 +
      (0xdc00 + (n - 0x10000) % 1024) % 16 = 0xdc00 + (n - 0x10000) % 1024
    from by omega] at hdlo
  simp only [hex4, List.cons_append, List.nil_append]
  rw [uStep_some _ hdhi, uCont_pair _ rest (by omega) hdlo (by omega),
    show 0x10000 + (0xd800 + (n - 0x10000) / 1024 - 0xd800) * 1024 +
      (0xdc00 + (n - 0x10000) % 1024 - 0xdc00) = n from by omega]

/-- The scanner enters `uStep` after a `\\u`. -/
theorem strTok_u (X : List Char) :
    strTok ('\\' :: 'u' :: X) =
      match uStep X with
      | some (ch, r) => .chr ch r
      | Option.none => .bad := by
  simp [strTok]

/-- The scanner decodes a single-character escape via `escMap`. -/
theorem strTok_esc {e ch : Char} (X : List Char) (he : e ≠ 'u')
    (hm : escMap e = some ch) :
    strTok ('\\' :: e :: X) = .chr ch X := by
  simp [strTok, he, hm]

/-- The scanner keeps an unescaped printable character verbatim. -/
theorem strTok_plain (c : Char) (X : List Char) (h1 : c ≠ '"') (h2 : c ≠ '\\')
    (h3 : ¬(c.toNat < 0x20)) :
    strTok (c :: X) = .chr c X := by
  simp [strTok, h1, h2, h3]

/-- Scanning back one escaped character: `strTok` consumes exactly
`escapeChar c` and yields `c`. -/
theorem strTok_escapeChar (c : Char) (tail : List Char) :
    strTok (escapeChar c ++ tail) = .chr c tail := by
  have hvalid := char_toNat_valid c
  by_cases h1 : c = '"'
  · subst h1
    exact strTok_esc tail (by decide) (by decide)
  by_cases h2 : c = '\\'
  · subst h2
    exact strTok_esc tail (by decide) (by decide)
  by_cases h3 : c = Char.ofNat 8
  · subst h3
    exact strTok_esc tail (by decide) (by decide)
  by_cases h4 : c = Char.ofNat 12
  · subst h4
    exact strTok_esc tail (by decide) (by decide)
  by_cases h5 : c = '\n'
  · subst h5
    exact strTok_esc tail (by decide) (by decide)
  by_cases h6 : c = Char.ofNat 13
  · subst h6
    exact strTok_esc tail (by decide) (by decide)
  by_cases h7 : c = '\t'
  · subst h7
    exact strTok_esc tail (by decide) (by decide)
  by_cases h8 : c.toNat < 0x20 ∨ 0x7e < c.toNat
  · have hesc : escapeChar c = uEscape c.toNat := by
      unfold escapeChar
      rw [if_neg h1, if_neg h2, if_neg h3, if_neg h4, if_neg h5, if_neg h6,
        if_neg h7, if_pos h8]
    by_cases hn : c.toNat < 0x10000
    · rw [hesc, show uEscape c.toNat = '\\' :: 'u' :: hex4 c.toNat from by
        unfold uEscape; rw [if_pos hn]]
      simp only [List.cons_append]
      rw [strTok_u, uStep_hex4 c.toNat tail hn (by omega)]
      rw [char_ofNat_toNat]
    · rw [hesc, show uEscape c.toNat =
          ('\\' :: 'u' :: hex4 (0xd800 + (c.toNat - 0x10000) / 1024)) ++
          ('\\' :: 'u' :: hex4 (0xdc00 + (c.toNat - 0x10000) % 1024)) from by
        unfold uEscape; rw [if_neg hn]]
      simp only [List.cons_append, List.append_assoc]
      rw [strTok_u,
        show uStep (hex4 (0xd800 + (c.toNat - 0x10000) / 1024) ++
            '\\' :: 'u' :: (hex4 (0xdc00 + (c.toNat - 0x10000) % 1024) ++ tail)) =
          some (Char.ofNat c.toNat, tail) from
            uStep_pair c.toNat tail (by omega) (by omega)]
      rw [char_ofNat_toNat]
  · have hesc : escapeChar c = [c] := by
      unfold escapeChar
      rw [if_neg h1, if_neg h2, if_neg h3, if_neg h4, if_neg h5, if_neg h6,
        if_neg h7, if_neg h8]
    rw [hesc]
    exact strTok_plain c tail h1 h2 (by omega)

/-- Escaping never erases a character: the rendering is at least as long as
the string. -/
theorem escList_length (cs : List Char) : cs.length ≤ (escList cs).length := by
  induction cs with
  | nil => simp [escList]
  | cons c cs ih =>
    have hpos : 1 ≤ (escapeChar c).length := by
      unfold escapeChar uEscape
      split_ifs <;> simp [hex4]
    simp only [escList, List.map_cons, List.flatten_cons, List.length_append,
      List.length_cons]
    rw [show escList cs = (cs.map escapeChar).flatten from rfl] at ih
    omega

/-- Reading back an escaped string: `parseStringBody` consumes the rendering
and the closing quote and returns the original characters, for any
sufficient fuel. -/
theorem parseStringBody_escList (cs : List Char) : ∀ (fuel : Nat) (rest : List Char),
    cs.length + 1 ≤ fuel →
    parseStringBody fuel (escList cs ++ '"' :: rest) = some (cs, rest) := by
  induction cs with
  | nil =>
    intro fuel rest h
    obtain ⟨f, rfl⟩ : ∃ f, fuel = f + 1 := ⟨fuel - 1, by omega⟩
    simp [escList, parseStringBody, strTok_close]
  | cons c cs ih =>
    intro fuel rest h
    obtain ⟨f, rfl⟩ : ∃ f, fuel = f + 1 := ⟨fuel - 1, by omega⟩
    rw [show escList (c :: cs) = escapeChar c ++ escList cs from by
      simp [escList], List.append_assoc]
    simp only [parseStringBody, strTok_escapeChar c (escList cs ++ '"' :: rest)]
    rw [ih f rest (by simp at h; omega)]

/-- A quote is not whitespace. -/
theorem skipWs_quote (X : List Char) : skipWs ('"' :: X) = '"' :: X := by
  simp [skipWs, isJsonWs]

/-- Reading back a rendered string value. -/
theorem parseVal_pystr (fuel : Nat) (cs rest : List Char) :
    parseVal (fuel + 1) (dumpsStr cs ++ rest) = some (.pystr (String.mk cs), rest) := by
  have hx : dumpsStr cs ++ rest = '"' :: (escList cs ++ '"' :: rest) := by
    simp [dumpsStr]
  have hpsb := parseStringBody_escList cs ((escList cs).length + (rest.length + 1) + 1) rest
    (by have := escList_length cs; omega)
  rw [hx]
  simp [parseVal, skipWs_quote, hpsb]

/-- `parseVal` ignores one leading space. -/
theorem parseVal_ws (fuel : Nat) (cs : List Char) :
    parseVal (fuel + 1) (' ' :: cs) = parseVal (fuel + 1) cs := by
  simp [parseVal, skipWs, isJsonWs]

/-- The colon after a rendered key. -/
theorem expectColon_colon (X : List Char) : expectColon (':' :: X) = some X := by
  simp [expectColon, skipWs, isJsonWs]

/-- The closing brace after the last member. -/
theorem sepTok_closeBrace (rest : List Char) :
    sepTok (Char.ofNat 125 :: rest) = .close rest := by
  simp [sepTok, skipWs, isJsonWs]

/-- The `', '` separator before the next member's key. -/
theorem sepTok_comma_quote (X : List Char) :
    sepTok (',' :: ' ' :: '"' :: X) = .comma ('"' :: X) := by
  simp [sepTok, skipWs, isJsonWs]

/-- Reading back the rendered members of a non-empty keyring: with enough
fuel, `parseMembers` rebuilds exactly the dictionary it came from, appended
to whatever accumulator the parse started with (keys must be fresh for the
accumulator, which is what the `dNodup` premise states). -/
theorem parseMembers_entries (d : PyDict) :
    ∀ (k : String) (v : PyVal) (acc : PyDict) (fuel : Nat) (rest : List Char),
      2 * dLen d + 2 ≤ fuel →
      dStrVals (.cons k v d) = true →
      dNodup (dConcat acc (.cons k v d)) = true →
      parseMembers fuel acc (dumpsEntries (.cons k v d) ++ Char.ofNat 125 :: rest) =
        some (.pydict (dConcat acc (.cons k v d)), rest) := by
  induction d using pyDictInd with
  | hnil =>
    intro k v acc fuel rest hfuel hstr hnodup
    obtain ⟨s, rfl⟩ : ∃ s, v = .pystr s := by
      cases v with
      | pystr s => exact ⟨s, rfl⟩
      | pynone => simp [dStrVals] at hstr
      | pydict dd => simp [dStrVals] at hstr
    obtain ⟨F, rfl⟩ : ∃ F, fuel = F + 1 := ⟨fuel - 1, by omega⟩
    have hfree : dMem acc k = false := dNodup_dConcat_head acc .nil k (.pystr s) hnodup
    have hx : dumpsEntries (.cons k (.pystr s) .nil) ++ Char.ofNat 125 :: rest =
        '"' :: (escList k.data ++ '"' ::
          ':' :: ' ' :: (dumpsStr s.data ++ Char.ofNat 125 :: rest)) := by
      simp [dumpsEntries, dumpsStr, dumpsVal]
    rw [hx]
    simp only [parseMembers]
    have hkey := parseStringBody_escList k.data
      ((escList k.data ++ '"' :: ':' :: ' ' ::
        (dumpsStr s.data ++ Char.ofNat 125 :: rest)).length + 1)
      (':' :: ' ' :: (dumpsStr s.data ++ Char.ofNat 125 :: rest))
      (by have := escList_length k.data; simp only [List.length_append, List.length_cons]; omega)
    obtain ⟨f2, rfl⟩ : ∃ f2, F = f2 + 1 := ⟨F - 1, by omega⟩
    rw [hkey]
    simp [expectColon_colon, parseVal_ws, parseVal_pystr, sepTok_closeBrace,
      string_mk_data, dInsert_fresh acc k (.pystr s) hfree, dConcat]
  | hcons k2 v2 d2 ih =>
    intro k v acc fuel rest hfuel hstr hnodup
    obtain ⟨s, rfl⟩ : ∃ s, v = .pystr s := by
      cases v with
      | pystr s => exact ⟨s, rfl⟩
      | pynone => simp [dStrVals] at hstr
      | pydict dd => simp [dStrVals] at hstr
    obtain ⟨F, rfl⟩ : ∃ F, fuel = F + 1 := ⟨fuel - 1, by omega⟩
    have hfree : dMem acc k = false :=
      dNodup_dConcat_head acc (.cons k2 v2 d2) k (.pystr s) hnodup
    have hx : dumpsEntries (.cons k (.pystr s) (.cons k2 v2 d2)) ++ Char.ofNat 125 :: rest =
        '"' :: (escList k.data ++ '"' :: ':' :: ' ' :: (dumpsStr s.data ++
          ',' :: ' ' :: (dumpsEntries (.cons k2 v2 d2) ++ Char.ofNat 125 :: rest))) := by
      simp [dumpsEntries, dumpsStr, dumpsVal]
    rw [hx]
    simp only [parseMembers]
    have hkey := parseStringBody_escList k.data
      ((escList k.data ++ '"' :: ':' :: ' ' :: (dumpsStr s.data ++
        ',' :: ' ' :: (dumpsEntries (.cons k2 v2 d2) ++ Char.ofNat 125 :: rest))).length + 1)
      (':' :: ' ' :: (dumpsStr s.data ++
        ',' :: ' ' :: (dumpsEntries (.cons k2 v2 d2) ++ Char.ofNat 125 :: rest)))
      (by have := escList_length k.data; simp only [List.length_append, List.length_cons]; omega)
    obtain ⟨f2, rfl⟩ : ∃ f2, F = f2 + 1 := ⟨F - 1, by omega⟩
    obtain ⟨Z, hZ⟩ : ∃ Z, dumpsEntries (.cons k2 v2 d2) ++ Char.ofNat 125 :: rest =
        '"' :: Z := by
      cases d2 with
      | nil =>
        exact ⟨escList k2.data ++ '"' :: ':' :: ' ' ::
          (dumpsVal v2 ++ Char.ofNat 125 :: rest), by simp [dumpsEntries, dumpsStr]⟩
      | cons a b c =>
        exact ⟨escList k2.data ++ '"' :: ':' :: ' ' :: (dumpsVal v2 ++ ',' :: ' ' ::
          (dumpsEntries (.cons a b c) ++ Char.ofNat 125 :: rest)),
          by simp [dumpsEntries, dumpsStr]⟩
    have hstr2 : dStrVals (.cons k2 v2 d2) = true := by
      simpa [dStrVals] using hstr
    have hnodup2 : dNodup (dConcat (dConcat acc (.cons k (.pystr s) .nil))
        (.cons k2 v2 d2)) = true := by
      rw [dConcat_assoc]
      simpa [dConcat] using hnodup
    have hih := ih k2 v2 (dConcat acc (.cons k (.pystr s) .nil)) (f2 + 1) rest
      (by simp [dLen] at hfuel ⊢; omega) hstr2 hnodup2
    rw [hZ] at hih
    rw [hkey]
    simp [expectColon_colon, parseVal_ws, parseVal_pystr, sepTok_comma_quote,
      string_mk_data, hZ, dInsert_fresh acc k (.pystr s) hfree, hih,
      dConcat_assoc, dConcat]

/-- Reading back a rendered keyring object. -/
theorem parseVal_pydict (d : PyDict) (fuel : Nat) (rest : List Char)
    (hfuel : 2 * dLen d + 3 ≤ fuel) (hstr : dStrVals d = true)
    (hnodup : dNodup d = true) :
    parseVal fuel (dumpsVal (.pydict d) ++ rest) = some (.pydict d, rest) := by
  obtain ⟨F, rfl⟩ : ∃ F, fuel = F + 1 := ⟨fuel - 1, by omega⟩
  cases d with
  | nil => simp [dumpsVal, dumpsEntries, parseVal, skipWs, isJsonWs]
  | cons k v d2 =>
    have hx : dumpsVal (.pydict (.cons k v d2)) ++ rest =
        Char.ofNat 123 :: (dumpsEntries (.cons k v d2) ++ Char.ofNat 125 :: rest) := by
      simp [dumpsVal]
    rw [hx]
    obtain ⟨Z, hZ⟩ : ∃ Z, dumpsEntries (.cons k v d2) ++ Char.ofNat 125 :: rest =
        '"' :: Z := by
      cases d2 with
      | nil =>
        exact ⟨escList k.data ++ '"' :: ':' :: ' ' ::
          (dumpsVal v ++ Char.ofNat 125 :: rest), by simp [dumpsEntries, dumpsStr]⟩
      | cons a b c =>
        exact ⟨escList k.data ++ '"' :: ':' :: ' ' :: (dumpsVal v ++ ',' :: ' ' ::
          (dumpsEntries (.cons a b c) ++ Char.ofNat 125 :: rest)),
          by simp [dumpsEntries, dumpsStr]⟩
    have hm := parseMembers_entries d2 k v .nil F rest
      (by simp [dLen] at hfuel ⊢; omega) hstr (by simpa [dConcat] using hnodup)
    rw [hZ] at hm
    simp [parseVal, skipWs, isJsonWs, hZ, hm, dConcat]

/-- Each member renders to at least two characters, giving the fuel bound
`loads` needs. -/
theorem dumpsEntries_length (d : PyDict) : 2 * dLen d ≤ (dumpsEntries d).length := by
  induction d using pyDictInd with
  | hnil => simp [dumpsEntries, dLen]
  | hcons k v rest ih =>
    cases rest with
    | nil =>
      simp [dumpsEntries, dumpsStr, dLen, List.length_append]
      omega
    | cons a b c =>
      simp only [dumpsEntries, dumpsStr, dLen, List.length_append,
        List.length_cons] at ih ⊢
      omega

/-- `json.loads` inverts `json.dumps` on every keyring with unique labels
and string addresses. -/
theorem loads_dumps_pydict (d : PyDict) (hstr : dStrVals d = true)
    (hnodup : dNodup d = true) :
    loads (dumps (.pydict d)) = some (.pydict d) := by
  unfold loads dumps
  rw [show (String.mk (dumpsVal (.pydict d))).data = dumpsVal (.pydict d) from rfl]
  have hp := parseVal_pydict d ((dumpsVal (.pydict d)).length + 1) []
    (by have := dumpsEntries_length d
        simp only [dumpsVal, List.length_append, List.length_cons]
        omega)
    hstr hnodup
  rw [show dumpsVal (.pydict d) ++ ([] : List Char) = dumpsVal (.pydict d) from by
    simp] at hp
  rw [hp]
  simp [skipWs]

/-- Saving a keyring and loading the file back yields the same keyring. -/
theorem load_save_pydict (d : PyDict) (hstr : dStrVals d = true)
    (hnodup : dNodup d = true) :
    load (save_keyring (.pydict d)).2 = .pydict d := by
  simp [save_keyring, load, loads_dumps_pydict d hstr hnodup]

/-- C1: the spec says `rename(a, b)` with `a` present and `b` absent completes
and yields a keyring with `b` mapped to `a`'s old value and no `a` key.  The
code instead dies: `rename_key`'s body calls the decorated `add_key` with
`keyring=` as a keyword argument and `open_keyring` supplies `keyring` a
second time, so on the failing input — keyring file `\x7b"a": "v"\x7d`, command
`rename a b` — nothing is printed, the file is untouched, and the process
aborts with the duplicate-keyword `TypeError`. -/
theorem sw_c1_rename_raises :
    sw_main ["rename", "a", "b"] (.present "\x7b\"a\": \"v\"\x7d") =
      ⟨[], [mkdirShell, mkdirShell], .present "\x7b\"a\": \"v\"\x7d",
        .error .kwargMultipleKeyring⟩ := rfl

/-- C2: the spec says an argument-count failure prints its message and leaves
both the in-memory and the persisted keyring unchanged.  On the failing
input — keyring file `\x7b"db": "10.0.0.1"\x7d`, command `add y` — the count
message is printed, but the guard returns `None` and `open_keyring`
serializes it: the keyring file is overwritten with `null`, which a
subsequent load hands to commands as `None`. -/
theorem sw_c2_count_fail_overwrites :
    sw_main ["add", "y"] (.present "\x7b\"db\": \"10.0.0.1\"\x7d") =
      ⟨["This action requires 2 arguments!"], [mkdirShell],
        .present "null", .ok .pynone⟩ ∧
    load (.present "null") = .pynone := ⟨rfl, rfl⟩

/-- C3: the spec says `import` merges the file's mapping into the keyring,
incoming values winning.  The code never gets there: `import_keyring`'s first
parameter is named `keyring`, so the positional file path collides with the
`keyring` keyword `open_keyring` passes.  On the failing input — keyring
`\x7b"x": "0", "y": "2"\x7d`, command `import f` — nothing is printed (the
file to be imported is never even opened), the keyring file is untouched,
and the process aborts with `TypeError`. -/
theorem sw_c3_import_raises :
    sw_main ["import", "f"] (.present "\x7b\"x\": \"0\", \"y\": \"2\"\x7d") =
      ⟨[], [mkdirShell], .present "\x7b\"x\": \"0\", \"y\": \"2\"\x7d",
        .error .argMultipleKeyring⟩ := rfl

/-- C4: `load` never fails the calling command: a missing file and malformed
content both degrade to the empty mapping, and otherwise the parsed mapping
is returned. -/
theorem sw_c4_load_never_fails :
    load .missing = .pydict .nil ∧
    (∀ s, loads s = Option.none → load (.present s) = .pydict .nil) ∧
    (∀ s d, loads s = some (.pydict d) → load (.present s) = .pydict d) := by
  refine ⟨rfl, ?_, ?_⟩
  · intro s h
    simp [load, h]
  · intro s d h
    simp [load, h]

/-- Witness for C4 at concrete inputs: garbage content loads as the empty
keyring, a well-formed file loads as its mapping. -/
theorem sw_c4_load_never_fails_witness :
    load (.present "not json") = .pydict .nil ∧
    load (.present "\x7b\"a\": \"b\"\x7d") = .pydict (.cons "a" (.pystr "b") .nil) :=
  ⟨sw_c4_load_never_fails.2.1 "not json" rfl,
   sw_c4_load_never_fails.2.2 "\x7b\"a\": \"b\"\x7d" (.cons "a" (.pystr "b") .nil) rfl⟩

/-- C5: for the guarded commands the evaluation order is: keyring loaded,
label existence checked on the raw argument list, then argument count, then
the body.  Concretely: an existing label makes `add` print the
already-registered message whatever the arity; a missing label makes
`remove`/`connect`/`run` print the invalid-label message whatever the arity;
only once the label check passes does `add` report a count failure; and with
both checks passed the body runs. -/
theorem sw_c5_validation_order :
    (∀ fs d label rest, load fs = .pydict d → dMem d label = true →
      sw_main ("add" :: label :: rest) fs =
        ⟨["The label " ++ label ++ " is already registered!"], [mkdirShell],
          .present (dumps (.pydict d)), .ok (.pydict d)⟩) ∧
    (∀ fs d label rest, load fs = .pydict d → dMem d label = false →
      sw_main ("remove" :: label :: rest) fs =
        ⟨[label ++ " is not a valid label!"], [mkdirShell],
          .present (dumps (.pydict d)), .ok (.pydict d)⟩) ∧
    (∀ fs d label rest, load fs = .pydict d → dMem d label = false →
      sw_main ("connect" :: label :: rest) fs =
        ⟨[label ++ " is not a valid label!"], [mkdirShell],
          .present (dumps (.pydict d)), .ok (.pydict d)⟩) ∧
    (∀ fs d label rest, load fs = .pydict d → dMem d label = false →
      sw_main ("run" :: label :: rest) fs =
        ⟨[label ++ " is not a valid label!"], [mkdirShell],
          .present (dumps (.pydict d)), .ok (.pydict d)⟩) ∧
    (∀ fs d label, load fs = .pydict d → dMem d label = false →
      sw_main ["add", label] fs =
        ⟨["This action requires 2 arguments!"], [mkdirShell],
          .present "null", .ok .pynone⟩) ∧
    (∀ fs d label addr, load fs = .pydict d → dMem d label = false →
      sw_main ["add", label, addr] fs =
        ⟨[], [mkdirShell], .present (dumps (.pydict (dInsert d label (.pystr addr)))),
          .ok (.pydict (dInsert d label (.pystr addr)))⟩) :=
  ⟨add_key_existing, remove_key_missing, ssh_connect_missing, ssh_run_missing,
   add_key_count_fail, add_key_fresh⟩

/-- Witness for C5: `add db` with `db` registered prints the
already-registered message (not the count message) and leaves the keyring as
it was; `add y` with `y` fresh reaches the count check. -/
theorem sw_c5_validation_order_witness :
    sw_main ["add", "db"] (.present "\x7b\"db\": \"x\"\x7d") =
      ⟨["The label db is already registered!"], [mkdirShell],
        .present (dumps (.pydict (.cons "db" (.pystr "x") .nil))),
        .ok (.pydict (.cons "db" (.pystr "x") .nil))⟩ ∧
    sw_main ["add", "y"] (.present "\x7b\"db\": \"x\"\x7d") =
      ⟨["This action requires 2 arguments!"], [mkdirShell],
        .present "null", .ok .pynone⟩ :=
  ⟨sw_c5_validation_order.1 (.present "\x7b\"db\": \"x\"\x7d")
      (.cons "db" (.pystr "x") .nil) "db" [] rfl rfl,
   sw_c5_validation_order.2.2.2.2.1 (.present "\x7b\"db\": \"x\"\x7d")
      (.cons "db" (.pystr "x") .nil) "y" rfl rfl⟩

/-- C6: `remove` on an unregistered label is a soft failure: it prints
exactly `LABEL is not a valid label!` and returns (and re-saves) the keyring
unchanged. -/
theorem sw_c6_remove_missing_soft (fs : FileState) (d : PyDict) (label : String)
    (h : load fs = .pydict d) (hm : dMem d label = false) :
    sw_main ["remove", label] fs =
      ⟨[label ++ " is not a valid label!"], [mkdirShell],
        .present (dumps (.pydict d)), .ok (.pydict d)⟩ :=
  remove_key_missing fs d label [] h hm

/-- Witness for C6 at the spec's concrete input: `remove ghost` prints
`ghost is not a valid label!` and the keyring is unchanged. -/
theorem sw_c6_remove_missing_soft_witness :
    sw_main ["remove", "ghost"] (.present "\x7b\"db\": \"x\"\x7d") =
      ⟨["ghost is not a valid label!"], [mkdirShell],
        .present (dumps (.pydict (.cons "db" (.pystr "x") .nil))),
        .ok (.pydict (.cons "db" (.pystr "x") .nil))⟩ :=
  sw_c6_remove_missing_soft (.present "\x7b\"db\": \"x\"\x7d")
    (.cons "db" (.pystr "x") .nil) "ghost" rfl rfl

/-- C7 counterexample: the claim quotes the message as
`db is already registered!`, but the second `add db x` on a keyring already
holding `db` prints `The label db is already registered!`. -/
theorem sw_c7_message_counterexample :
    (sw_main ["add", "db", "x"] (.present "\x7b\"db\": \"x\"\x7d")).printed ≠
      ["db is already registered!"] := by decide

/-- C7 (amended): a second `add` of an existing label leaves the keyring
unchanged and prints `The label LABEL is already registered!`. -/
theorem sw_c7_add_existing_soft (fs : FileState) (d : PyDict) (label addr : String)
    (h : load fs = .pydict d) (hm : dMem d label = true) :
    sw_main ["add", label, addr] fs =
      ⟨["The label " ++ label ++ " is already registered!"], [mkdirShell],
        .present (dumps (.pydict d)), .ok (.pydict d)⟩ :=
  add_key_existing fs d label [addr] h hm

/-- Witness for C7 at the spec's concrete input. -/
theorem sw_c7_add_existing_soft_witness :
    sw_main ["add", "db", "x"] (.present "\x7b\"db\": \"x\"\x7d") =
      ⟨["The label db is already registered!"], [mkdirShell],
        .present (dumps (.pydict (.cons "db" (.pystr "x") .nil))),
        .ok (.pydict (.cons "db" (.pystr "x") .nil))⟩ :=
  sw_c7_add_existing_soft (.present "\x7b\"db\": \"x\"\x7d")
    (.cons "db" (.pystr "x") .nil) "db" "x" rfl rfl

/-- C8: saving the exact mapping just loaded and loading again yields an
equal mapping, for every keyring proper (unique labels, string addresses). -/
theorem sw_c8_save_load_roundtrip (fs : FileState) (d : PyDict)
    (h : load fs = .pydict d) (hstr : dStrVals d = true)
    (hnodup : dNodup d = true) :
    load (save_keyring (load fs)).2 = load fs := by
  rw [h]
  exact load_save_pydict d hstr hnodup

/-- Witness for C8 on a two-entry keyring. -/
theorem sw_c8_save_load_roundtrip_witness :
    load (save_keyring (load
        (.present "\x7b\"db\": \"10.0.0.1\", \"web\": \"u@h\"\x7d"))).2 =
      load (.present "\x7b\"db\": \"10.0.0.1\", \"web\": \"u@h\"\x7d") :=
  sw_c8_save_load_roundtrip (.present "\x7b\"db\": \"10.0.0.1\", \"web\": \"u@h\"\x7d")
    (.cons "db" (.pystr "10.0.0.1") (.cons "web" (.pystr "u@h") .nil)) rfl rfl rfl

/-- C9: `add`, `remove`, `connect` and `run` invoked with no positional
arguments die with the missing-`label` `TypeError` from `validate_label_fn`
— no argument-count message, no save. -/
theorem sw_c9_zero_args_typeerror (fs : FileState) :
    sw_main ["add"] fs = ⟨[], [mkdirShell], fs, .error .missingLabelArg⟩ ∧
    sw_main ["remove"] fs = ⟨[], [mkdirShell], fs, .error .missingLabelArg⟩ ∧
    sw_main ["connect"] fs = ⟨[], [mkdirShell], fs, .error .missingLabelArg⟩ ∧
    sw_main ["run"] fs = ⟨[], [mkdirShell], fs, .error .missingLabelArg⟩ := by
  refine ⟨?_, ?_, ?_, ?_⟩ <;>
    simp [sw_main, add_key, remove_key, ssh_connect, ssh_run, open_keyring,
      validate_label, required_argument_count]

/-- Witness for C9 at a concrete file state. -/
theorem sw_c9_zero_args_typeerror_witness :
    sw_main ["add"] .missing = ⟨[], [mkdirShell], .missing, .error .missingLabelArg⟩ :=
  (sw_c9_zero_args_typeerror .missing).1

/-- C10: `connect` and `run` on a registered label leave the mapping
unchanged — the very mapping that was loaded is returned and written back
after the ssh invocation. -/
theorem sw_c10_connect_run_preserve (fs : FileState) (d : PyDict)
    (label : String) (v : PyVal) (h : load fs = .pydict d)
    (hv : dLookup d label = some v) :
    sw_main ["connect", label] fs =
      ⟨["Connecting to " ++ pyFormat v ++ "...", "ssh session finished"],
        [mkdirShell, "ssh " ++ pyFormat v],
        .present (dumps (.pydict d)), .ok (.pydict d)⟩ ∧
    (∀ command, sw_main ["run", label, command] fs =
      ⟨["Connecting to " ++ pyFormat v ++ "...", "ssh session finished"],
        [mkdirShell, "ssh -t " ++ pyFormat v ++ " " ++ command],
        .present (dumps (.pydict d)), .ok (.pydict d)⟩) :=
  ⟨ssh_connect_ok fs d label v h hv,
   fun command => ssh_run_ok fs d label command v h hv⟩

/-- Witness for C10 at a concrete keyring. -/
theorem sw_c10_connect_run_preserve_witness :
    sw_main ["connect", "db"] (.present "\x7b\"db\": \"u@h\"\x7d") =
      ⟨["Connecting to u@h...", "ssh session finished"], [mkdirShell, "ssh u@h"],
        .present (dumps (.pydict (.cons "db" (.pystr "u@h") .nil))),
        .ok (.pydict (.cons "db" (.pystr "u@h") .nil))⟩ :=
  (sw_c10_connect_run_preserve (.present "\x7b\"db\": \"u@h\"\x7d")
    (.cons "db" (.pystr "u@h") .nil) "db" (.pystr "u@h") rfl rfl).1
